import Mathlib

set_option autoImplicit false

namespace MoneyLeads

/-!
Shallow embedding of the MoneyLeads job pipeline (supabase_client.py,
base_worker.py, worker_script.py, worker_voiceover.py, worker_video.py,
worker_youtube.py).  The job store is a list of job records; every store
mutation goes through `update_job_status`, which mirrors
`SupabaseClient.update_job_status` (an update filtered by `id` only,
returning whether any row matched).  External effects (AI text
generation, TTS, rendering, upload) are parameters of the stage
processors, exactly at the interface boundary the code calls them.
-/

/-! ### Metadata: the job's open key-value bag (a Python dict, insertion ordered) -/

inductive MetaVal where
  | str : String → MetaVal
  | strList : List String → MetaVal
deriving DecidableEq

abbrev Metadata := List (String × MetaVal)

/-- `d.get(key)` on the metadata dict. -/
def metaGet : Metadata → String → Option MetaVal
  | [], _ => none
  | (k, v) :: rest, key => if k = key then some v else metaGet rest key

/-- `d[key] = v`: replace in place if present, else append (dict insertion order). -/
def metaSet : Metadata → String → MetaVal → Metadata
  | [], key, v => [(key, v)]
  | (k, w) :: rest, key, v =>
      if k = key then (k, v) :: rest else (k, w) :: metaSet rest key v

/-- `d.pop(key, None)`: drop the key if present. -/
def metaPop (md : Metadata) (key : String) : Metadata :=
  md.filter (fun p => p.1 != key)

/-- `d.get(key)` when the caller compares the result against a string:
a stored list never equals a string in Python, so it reads as absent. -/
def metaGetS (md : Metadata) (key : String) : Option String :=
  match metaGet md key with
  | some (MetaVal.str s) => some s
  | _ => none

/-- `d.get(key, dflt)` compared against a string (a stored list compares unequal,
which the default string also does in the callers). -/
def metaGetD (md : Metadata) (key : String) (dflt : String) : String :=
  match metaGet md key with
  | some (MetaVal.str s) => s
  | _ => dflt

/-! ### Job rows of the `video_jobs` table -/

structure Job where
  id : String
  created_at : Nat
  topic : Option String
  status : String
  script : Option String
  title : Option String
  description : Option String
  tags : Option (List String)
  voiceover_url : Option String
  video_url : Option String
  youtube_url : Option String
  youtube_video_id : Option String
  error_message : Option String
  metadata : Metadata
  started_at : Option Nat
  completed_at : Option Nat
  updated_at : Nat
deriving DecidableEq

/-- Python truthiness of an optional string field (`job.get("script")` etc.). -/
def truthyS : Option String → Bool
  | none => false
  | some s => s != ""

/-- The `**updates` keyword fields `SupabaseClient.update_job_status` accepts
from its callers in this repository. -/
structure JobUpdates where
  metadata : Option Metadata := none
  script : Option String := none
  title : Option String := none
  description : Option String := none
  tags : Option (List String) := none
  voiceover_url : Option String := none
  video_url : Option String := none
  youtube_url : Option String := none
  youtube_video_id : Option String := none
deriving DecidableEq

/-- `SupabaseClient.get_job`: first row matching the id. -/
def findJob : List Job → String → Option Job
  | [], _ => none
  | j :: rest, job_id => if j.id = job_id then some j else findJob rest job_id

/-- The `started_at` decision of `SupabaseClient.update_job_status`: set it when a
non-`pending` status is written and the existing row has no `started_at` yet. -/
def set_started_flag (store : List Job) (job_id : String) (status : Option String) : Bool :=
  match status with
  | some s =>
      if s = "pending" then false
      else
        match findJob store job_id with
        | some existing => existing.started_at.isNone
        | none => false
  | none => false

/-- The `update_data` dict of `SupabaseClient.update_job_status` merged onto a row:
`updated_at` always, `status` (with `started_at`/`completed_at`) when given,
`error_message` only when truthy, then the extra `**updates`. -/
def applyUpdate (now : Nat) (set_started : Bool) (status : Option String)
    (err : Option String) (u : JobUpdates) (j : Job) : Job :=
  { id := j.id
    created_at := j.created_at
    topic := j.topic
    status := match status with | some s => s | none => j.status
    started_at := if set_started then some now else j.started_at
    completed_at :=
      match status with
      | some s => if s = "completed" ∨ s = "failed" then some now else j.completed_at
      | none => j.completed_at
    error_message :=
      match err with
      | some e => if e = "" then j.error_message else some e
      | none => j.error_message
    metadata := match u.metadata with | some m => m | none => j.metadata
    script := match u.script with | some v => some v | none => j.script
    title := match u.title with | some v => some v | none => j.title
    description := match u.description with | some v => some v | none => j.description
    tags := match u.tags with | some v => some v | none => j.tags
    voiceover_url := match u.voiceover_url with | some v => some v | none => j.voiceover_url
    video_url := match u.video_url with | some v => some v | none => j.video_url
    youtube_url := match u.youtube_url with | some v => some v | none => j.youtube_url
    youtube_video_id := match u.youtube_video_id with | some v => some v | none => j.youtube_video_id
    updated_at := now }

/-- `SupabaseClient.update_job_status`: an update filtered by `id` only — there is
no condition on the current status.  The returned Bool is
`len(result.data) > 0`, i.e. whether any row matched the id. -/
def update_job_status (store : List Job) (now : Nat) (job_id : String)
    (status : Option String) (err : Option String) (u : JobUpdates) : List Job × Bool :=
  let b := set_started_flag store job_id status
  (store.map (fun j => if j.id = job_id then applyUpdate now b status err u j else j),
   store.any (fun j => j.id == job_id))

/-! ### Fetching (`get_pending_jobs` / `get_all_jobs` order by `created_at`) -/

def insertAsc (j : Job) : List Job → List Job
  | [] => [j]
  | k :: ks => if j.created_at ≤ k.created_at then j :: k :: ks else k :: insertAsc j ks

def sortAsc : List Job → List Job
  | [] => []
  | j :: rest => insertAsc j (sortAsc rest)

def insertDesc (j : Job) : List Job → List Job
  | [] => [j]
  | k :: ks => if k.created_at < j.created_at then j :: k :: ks else k :: insertDesc j ks

def sortDesc : List Job → List Job
  | [] => []
  | j :: rest => insertDesc j (sortDesc rest)

/-- `SupabaseClient.get_pending_jobs`: pending rows, oldest first, bounded. -/
def sb_get_pending_jobs (store : List Job) (limit : Nat) : List Job :=
  (sortAsc (store.filter (fun j => j.status == "pending"))).take limit

/-- `SupabaseClient.get_all_jobs` (no status filter): newest first, bounded. -/
def sb_get_all_jobs (store : List Job) (limit : Nat) : List Job :=
  (sortDesc store).take limit

/-! ### BaseWorker: claim protocol and poll loop -/

/-- The `processing_status` dict of `BaseWorker.get_pending_jobs` with its
`.get(action_needed, "pending")` default.  Note the first key reads
`"generating_script"`, not the script worker's action `"generate_script"`. -/
def processing_status (action : String) : String :=
  if action = "generating_script" then "generating_script"
  else if action = "generate_voiceover" then "creating_voiceover"
  else if action = "create_video" then "rendering_video"
  else if action = "post_to_youtube" then "uploading"
  else "pending"

/-- One iteration of the loop body of `BaseWorker.get_pending_jobs` over a fetched
job snapshot: the accumulator is the evolving store plus the `ready_jobs` list. -/
def claim_step (checkDeps : Job → Bool × List String) (action : String) (now : Nat)
    (acc : List Job × List Job) (job : Job) : List Job × List Job :=
  if job.status ≠ "pending" then acc
  else
    let md := job.metadata
    if metaGetS md "action_needed" = some action then
      let r := checkDeps job
      if r.1 then
        let res := update_job_status acc.1 now job.id (some (processing_status action)) none
          { metadata := some md }
        if res.2 then (res.1, acc.2 ++ [job]) else (res.1, acc.2)
      else
        let md2 := metaSet md "missing_dependencies" (MetaVal.strList r.2)
        let res := update_job_status acc.1 now job.id none
          (some ("Missing dependencies: " ++ String.intercalate ", " r.2))
          { metadata := some md2 }
        (res.1, acc.2)
    else acc

/-- `BaseWorker.get_pending_jobs`: fetch up to `maxConc * 10` pending rows, run the
claim loop over the snapshots, and return `ready_jobs[:maxConc]` together with
the store as mutated by the claims and the missing-dependency annotations. -/
def worker_get_pending_jobs (checkDeps : Job → Bool × List String) (action : String)
    (maxConc : Nat) (now : Nat) (store : List Job) : List Job × List Job :=
  let all_jobs := sb_get_pending_jobs store (maxConc * 10)
  let res := all_jobs.foldl (claim_step checkDeps action now) (store, [])
  (res.1, res.2.take maxConc)

/-- The dispatch portion of one cycle of `BaseWorker.run`: compute the available
slots, filter out jobs already tracked in `active_jobs`, start the first
`available_slots` of the rest, and add their ids to `active_jobs`.
Returns the new active set and the ids dispatched this cycle. -/
def poll_cycle_dispatch (maxConc : Nat) (active : List String) (jobs : List Job) :
    List String × List String :=
  let available := maxConc - active.length
  if available > 0 then
    let new_jobs := jobs.filter (fun j => decide (j.id ∉ active))
    let dispatched := (new_jobs.take available).map Job.id
    (active ++ dispatched, dispatched)
  else (active, [])

/-! ### Dependency checkers of the four stage workers -/

def script_check_deps (j : Job) : Bool × List String :=
  let missing := if truthyS j.topic then [] else ["topic"]
  (missing.isEmpty, missing)

def voiceover_check_deps (j : Job) : Bool × List String :=
  let missing := if truthyS j.script then [] else ["script"]
  (missing.isEmpty, missing)

def video_check_deps (j : Job) : Bool × List String :=
  let missing :=
    (if truthyS j.script then [] else ["script"])
      ++ (if truthyS j.voiceover_url then [] else ["voiceover_url"])
  (missing.isEmpty, missing)

def youtube_check_deps (j : Job) : Bool × List String :=
  let missing :=
    (if truthyS j.title then [] else ["title"])
      ++ (if j.description.isNone then ["description"] else [])
      ++ (if truthyS j.video_url then [] else ["video_url"])
  (missing.isEmpty, missing)

/-! ### Stage processors (success paths; the external calls are parameters) -/

/-- The `except` path every stage processor shares: job to `failed` with the error
message recorded. -/
def stage_fail (now : Nat) (store : List Job) (job_id : String) (msg : String) : List Job :=
  (update_job_status store now job_id (some "failed") (some msg) {}).1

/-- `ScriptWorker.process_job`, success path after the overwrite guard: save the
generated title, description, tags and script one update at a time, then
route: a `run_all` job gets `action_needed = "generate_voiceover"` and keeps
the sentinel, otherwise both routing keys are popped; `missing_dependencies`
is popped and the job returns to `pending`. -/
def script_success_path (now : Nat) (store : List Job) (job_id : String)
    (gTitle gDescription : String) (gTags : List String) (gScript : String) : List Job :=
  let cm0 := match findJob store job_id with | some j => j.metadata | none => []
  let cm1 := metaSet cm0 "sub_status" (MetaVal.str "generating_title_description")
  let s1 := (update_job_status store now job_id none none { metadata := some cm1 }).1
  let s2 := (update_job_status s1 now job_id none none { title := some gTitle }).1
  let s3 := (update_job_status s2 now job_id none none { description := some gDescription }).1
  let s4 := (update_job_status s3 now job_id none none { tags := some gTags }).1
  let cm2 := metaSet cm1 "sub_status" (MetaVal.str "generating_script")
  let s5 := (update_job_status s4 now job_id none none { metadata := some cm2 }).1
  let s6 := (update_job_status s5 now job_id none none { script := some gScript }).1
  let cm3 := match findJob s6 job_id with | some j => j.metadata | none => []
  let oa := metaGetD cm3 "original_action" ""
  let ca := metaGetD cm3 "action_needed" ""
  let cm4 :=
    if oa = "run_all" ∨ ca = "run_all" then
      metaSet (metaSet cm3 "action_needed" (MetaVal.str "generate_voiceover"))
        "original_action" (MetaVal.str "run_all")
    else
      metaPop (metaPop cm3 "action_needed") "original_action"
  let cm5 := metaPop cm4 "missing_dependencies"
  (update_job_status s6 now job_id (some "pending") none { metadata := some cm5 }).1

/-- `ScriptWorker.process_job`: re-fetch the row; if a script is already present,
skip to prevent overwrite (still advancing the `run_all` routing hint),
otherwise run the success path. -/
def script_process_job (now : Nat) (store : List Job) (job : Job)
    (gTitle gDescription : String) (gTags : List String) (gScript : String) :
    List Job × Bool :=
  match findJob store job.id with
  | some current_job =>
      if truthyS current_job.script then
        let md := current_job.metadata
        let oa := metaGetD md "original_action" ""
        let ca := metaGetD md "action_needed" ""
        if oa = "run_all" ∨ ca = "run_all" then
          let md2 := metaSet (metaSet md "action_needed" (MetaVal.str "generate_voiceover"))
            "original_action" (MetaVal.str "run_all")
          ((update_job_status store now job.id none none { metadata := some md2 }).1, true)
        else (store, true)
      else (script_success_path now store job.id gTitle gDescription gTags gScript, true)
  | none => (script_success_path now store job.id gTitle gDescription gTags gScript, true)

/-- `VoiceoverWorker.process_job`, success path: claim status again, generate the
audio (external), save the freshly named local path into `voiceover_url`
unconditionally, then route exactly like the script worker but towards
`create_video`. -/
def voiceover_process_success (now : Nat) (store : List Job) (job_id : String)
    (vPath : String) : List Job :=
  let cm0 := match findJob store job_id with | some j => j.metadata | none => []
  let cm1 := metaSet cm0 "sub_status" (MetaVal.str "generating_audio")
  let s1 := (update_job_status store now job_id (some "creating_voiceover") none
    { metadata := some cm1 }).1
  let cm2 := metaSet cm1 "sub_status" (MetaVal.str "saving_voiceover")
  let s2 := (update_job_status s1 now job_id none none { metadata := some cm2 }).1
  let s3 := (update_job_status s2 now job_id none none { voiceover_url := some vPath }).1
  let cm3 := match findJob s3 job_id with | some j => j.metadata | none => []
  let oa := metaGetD cm3 "original_action" ""
  let ca := metaGetD cm3 "action_needed" ""
  let cm4 :=
    if oa = "run_all" ∨ ca = "run_all" then
      metaSet (metaSet cm3 "action_needed" (MetaVal.str "create_video"))
        "original_action" (MetaVal.str "run_all")
    else
      metaPop (metaPop cm3 "action_needed") "original_action"
  let cm5 := metaPop cm4 "missing_dependencies"
  (update_job_status s3 now job_id (some "pending") none { metadata := some cm5 }).1

/-- `VoiceoverWorker.process_job`: bail out when the snapshot has no script,
otherwise the success path with the generated file's unique local path. -/
def voiceover_process_job (now : Nat) (store : List Job) (job : Job) (vPath : String) :
    List Job × Bool :=
  if truthyS job.script then (voiceover_process_success now store job.id vPath, true)
  else (store, false)

/-- `VideoWorker.process_job`, success path: claim status again, render (external),
save the freshly named local path into `video_url` unconditionally, re-fetch,
drop `original_action` and `missing_dependencies`, and finish in `ready` (all
artifacts present, no YouTube upload yet) or `pending`; `action_needed` is
popped in both branches — the publish stage is never hinted automatically. -/
def video_process_success (now : Nat) (store : List Job) (job_id : String)
    (vidPath : String) : List Job :=
  let cm0 := match findJob store job_id with | some j => j.metadata | none => []
  let cm1 := metaSet cm0 "sub_status" (MetaVal.str "rendering_video")
  let s1 := (update_job_status store now job_id (some "rendering_video") none
    { metadata := some cm1 }).1
  let cm2 := metaSet cm1 "sub_status" (MetaVal.str "saving_video")
  let s2 := (update_job_status s1 now job_id none none { metadata := some cm2 }).1
  let s3 := (update_job_status s2 now job_id none none { video_url := some vidPath }).1
  match findJob s3 job_id with
  | none =>
      -- the Python re-fetch would raise here and the except path marks the job failed
      stage_fail now s3 job_id "AttributeError"
  | some cj =>
      let cm3 := metaPop (metaPop cj.metadata "original_action") "missing_dependencies"
      let cm4 := metaPop cm3 "action_needed"
      if truthyS cj.script && truthyS cj.voiceover_url && truthyS cj.video_url
          && !(truthyS cj.youtube_url) then
        (update_job_status s3 now job_id (some "ready") none { metadata := some cm4 }).1
      else
        (update_job_status s3 now job_id (some "pending") none { metadata := some cm4 }).1

/-- The heartbeat block of `BaseWorker.run`: fetch the most recent job, stamp
`"<worker_name>_heartbeat"` into its metadata, and write the metadata back with
`status=None`; failures are swallowed and no other field is touched. -/
def worker_heartbeat (workerKey : String) (ts : String) (now : Nat)
    (store : List Job) : List Job :=
  match sb_get_all_jobs store 1 with
  | [] => store
  | job :: _ =>
      let md := metaSet job.metadata (workerKey ++ "_heartbeat") (MetaVal.str ts)
      (update_job_status store now job.id none none { metadata := some md }).1

/-! ### Metadata lemmas -/

@[simp] theorem metaGet_set_self (md : Metadata) (k : String) (v : MetaVal) :
    metaGet (metaSet md k v) k = some v := by
  induction md with
  | nil => simp [metaSet, metaGet]
  | cons p rest ih =>
      obtain ⟨k0, v0⟩ := p
      by_cases h : k0 = k
      · simp [metaSet, h, metaGet]
      · simp [metaSet, h, metaGet, ih]

theorem metaGet_set_ne (md : Metadata) (k k' : String) (v : MetaVal) (h : k' ≠ k) :
    metaGet (metaSet md k v) k' = metaGet md k' := by
  induction md with
  | nil => simp [metaSet, metaGet, Ne.symm h]
  | cons p rest ih =>
      obtain ⟨k0, v0⟩ := p
      by_cases h0 : k0 = k
      · subst h0
        simp [metaSet, metaGet, Ne.symm h]
      · by_cases h1 : k0 = k'
        · simp [metaSet, h0, metaGet, h1, h]
        · simp [metaSet, h0, metaGet, h1, ih]

@[simp] theorem metaGet_pop_self (md : Metadata) (k : String) :
    metaGet (metaPop md k) k = none := by
  induction md with
  | nil => rfl
  | cons p rest ih =>
      obtain ⟨k0, v0⟩ := p
      by_cases h : k0 = k
      · simpa [metaPop, List.filter_cons, h] using ih
      · simpa [metaPop, List.filter_cons, h, metaGet] using ih

theorem metaGet_pop_ne (md : Metadata) (k k' : String) (h : k' ≠ k) :
    metaGet (metaPop md k) k' = metaGet md k' := by
  induction md with
  | nil => rfl
  | cons p rest ih =>
      obtain ⟨k0, v0⟩ := p
      by_cases h0 : k0 = k
      · subst h0
        simpa [metaPop, List.filter_cons, metaGet, Ne.symm h] using ih
      · by_cases h1 : k0 = k'
        · simp [metaPop, List.filter_cons, h0, metaGet, h1, h]
        · simpa [metaPop, List.filter_cons, h0, metaGet, h1] using ih

/-! ### Store lemmas -/

theorem findJob_map_apply (f : Job → Job) (hf : ∀ j, (f j).id = j.id)
    (store : List Job) (job_id : String) :
    findJob (store.map (fun j => if j.id = job_id then f j else j)) job_id
      = (findJob store job_id).map f := by
  induction store with
  | nil => rfl
  | cons j rest ih =>
      by_cases h : j.id = job_id
      · simp [findJob, h, hf]
      · simp [findJob, h, ih]

theorem findJob_map_other (f : Job → Job) (hf : ∀ j, (f j).id = j.id)
    (store : List Job) (job_id i : String) (h : i ≠ job_id) :
    findJob (store.map (fun j => if j.id = job_id then f j else j)) i
      = findJob store i := by
  induction store with
  | nil => rfl
  | cons j rest ih =>
      by_cases hj : j.id = job_id
      · have hni : ¬ j.id = i := by
          rw [hj]
          exact Ne.symm h
        simp [findJob, hj, hf, hni, Ne.symm h, ih]
      · simp [findJob, hj, ih]

theorem findJob_update_self (store : List Job) (now : Nat) (job_id : String)
    (st err : Option String) (u : JobUpdates) :
    findJob (update_job_status store now job_id st err u).1 job_id
      = (findJob store job_id).map
          (applyUpdate now (set_started_flag store job_id st) st err u) := by
  simp only [update_job_status]
  exact findJob_map_apply (applyUpdate now (set_started_flag store job_id st) st err u)
    (fun _ => rfl) store job_id

theorem findJob_update_other (store : List Job) (now : Nat) (job_id : String)
    (st err : Option String) (u : JobUpdates) (i : String) (h : i ≠ job_id) :
    findJob (update_job_status store now job_id st err u).1 i = findJob store i := by
  simp only [update_job_status]
  exact findJob_map_other (applyUpdate now (set_started_flag store job_id st) st err u)
    (fun _ => rfl) store job_id i h

/-! ### Concrete job builder shared by the claim checks -/

def mkJob (i : String) (c : Nat) (st : String) (md : Metadata) : Job :=
  { id := i, created_at := c, topic := some "web agency", status := st,
    script := none, title := none, description := none, tags := none,
    voiceover_url := none, video_url := none, youtube_url := none,
    youtube_video_id := none, error_message := none, metadata := md,
    started_at := none, completed_at := none, updated_at := 0 }

/-! ### C1 -/

def c1_store : List Job :=
  [{ mkJob "j1" 0 "pending" [("action_needed", MetaVal.str "generate_voiceover")] with
      script := some "hello" }]

def c1_updates : JobUpdates :=
  { metadata := some [("action_needed", MetaVal.str "generate_voiceover")] }

/-- C1: the claim operation is not a conditional update.
`SupabaseClient.update_job_status` filters rows by id only and reports success
whenever the id exists, so on a pending job a first claim succeeds, writes the
in-progress status, and a second claim attempt issued afterwards still reports
success instead of a zero-rows lost race. -/
theorem C1_claim_update_not_conditional :
    (update_job_status c1_store 1 "j1" (some "creating_voiceover") none c1_updates).2 = true
      ∧ (findJob (update_job_status c1_store 1 "j1" (some "creating_voiceover") none
          c1_updates).1 "j1").map Job.status = some "creating_voiceover"
      ∧ (update_job_status (update_job_status c1_store 1 "j1" (some "creating_voiceover") none
          c1_updates).1 2 "j1" (some "creating_voiceover") none c1_updates).2 = true := by
  exact ⟨rfl, rfl, rfl⟩

/-! ### C2 -/

/-- C2: the claim-time status map of `BaseWorker.get_pending_jobs` sends the
script worker's action `"generate_script"` to the `"pending"` default (the
intended key is misspelled `"generating_script"`), while the voiceover, video
and publish actions map to their in-progress statuses. -/
theorem C2_script_claim_writes_pending :
    processing_status "generate_script" = "pending"
      ∧ processing_status "generate_voiceover" = "creating_voiceover"
      ∧ processing_status "create_video" = "rendering_video"
      ∧ processing_status "post_to_youtube" = "uploading" := by
  exact ⟨rfl, rfl, rfl, rfl⟩

/-! ### C3 -/

theorem claim_step_snd_cases (checkDeps : Job → Bool × List String) (action : String)
    (now : Nat) (acc : List Job × List Job) (job : Job) :
    (claim_step checkDeps action now acc job).2 = acc.2
      ∨ ((claim_step checkDeps action now acc job).2 = acc.2 ++ [job]
          ∧ job.status = "pending"
          ∧ metaGetS job.metadata "action_needed" = some action
          ∧ (checkDeps job).1 = true) := by
  simp only [claim_step]
  split_ifs with h1 h2 h3 h4
  · exact Or.inl rfl
  · exact Or.inr ⟨rfl, not_not.mp h1, h2, h3⟩
  · exact Or.inl rfl
  · exact Or.inl rfl
  · exact Or.inl rfl

theorem claim_fold_ready_prop (checkDeps : Job → Bool × List String) (action : String)
    (now : Nat) (jobs : List Job) (acc : List Job × List Job)
    (hacc : ∀ j ∈ acc.2, j.status = "pending"
      ∧ metaGetS j.metadata "action_needed" = some action ∧ (checkDeps j).1 = true) :
    ∀ j ∈ (jobs.foldl (claim_step checkDeps action now) acc).2,
      j.status = "pending"
        ∧ metaGetS j.metadata "action_needed" = some action
        ∧ (checkDeps j).1 = true := by
  induction jobs generalizing acc with
  | nil => exact hacc
  | cons a rest ih =>
      intro j hj
      refine ih (claim_step checkDeps action now acc a) ?_ j hj
      intro x hx
      rcases claim_step_snd_cases checkDeps action now acc a with hc | hc
      · rw [hc] at hx
        exact hacc x hx
      · rw [hc.1] at hx
        rcases List.mem_append.mp hx with hx1 | hx2
        · exact hacc x hx1
        · have hxa := List.mem_singleton.mp hx2
          subst hxa
          exact ⟨hc.2.1, hc.2.2.1, hc.2.2.2⟩

/-- C3 (amended): in one poll cycle the worker hands at most `maxConc` jobs to
dispatch, and each of them is a dependency-ready pending candidate whose
`action_needed` matches the worker's action — but the claim loop is not bounded
by the dispatch capacity (see the counterexample). -/
theorem C3_amended_dispatch_bounded (checkDeps : Job → Bool × List String) (action : String)
    (maxConc now : Nat) (store : List Job) :
    (worker_get_pending_jobs checkDeps action maxConc now store).2.length ≤ maxConc
      ∧ ∀ j ∈ (worker_get_pending_jobs checkDeps action maxConc now store).2,
          j.status = "pending"
            ∧ metaGetS j.metadata "action_needed" = some action
            ∧ (checkDeps j).1 = true := by
  constructor
  · simp only [worker_get_pending_jobs, List.length_take]
    exact min_le_left _ _
  · intro j hj
    simp only [worker_get_pending_jobs] at hj
    have hj2 := List.take_subset _ _ hj
    refine claim_fold_ready_prop checkDeps action now _ (store, []) ?_ j hj2
    intro x hx
    exact absurd hx (List.not_mem_nil x)

def c3_store : List Job :=
  [{ mkJob "a" 1 "pending" [("action_needed", MetaVal.str "generate_voiceover")] with
      script := some "s" },
   { mkJob "b" 2 "pending" [("action_needed", MetaVal.str "generate_voiceover")] with
      script := some "s" }]

/-- C3 counterexample: with capacity 1 and two ready voiceover candidates the
claim loop claims both rows (both move to `creating_voiceover`) but only job
`a` is returned for dispatch; job `b` is left in the claimed in-progress
status without being dispatched in that cycle, and two claims were attempted
against an available capacity of one. -/
theorem C3_counterexample :
    (worker_get_pending_jobs voiceover_check_deps "generate_voiceover" 1 0 c3_store).2.map Job.id
        = ["a"]
      ∧ (findJob (worker_get_pending_jobs voiceover_check_deps "generate_voiceover" 1 0
          c3_store).1 "b").map Job.status = some "creating_voiceover" := by
  exact ⟨rfl, rfl⟩

/-! ### C6 -/

/-- C6: when a stage's dependency checker reports missing fields, the claim loop
does not claim the job (`ready_jobs` is unchanged), leaves its `stage_status`
untouched (the update passes `status=None`), and writes
`missing_dependencies` equal to exactly the checker's missing list. -/
theorem C6_not_ready_annotated (checkDeps : Job → Bool × List String) (action : String)
    (now : Nat) (store ready : List Job) (job : Job) (missing : List String)
    (hstatus : job.status = "pending")
    (haction : metaGetS job.metadata "action_needed" = some action)
    (hdeps : checkDeps job = (false, missing)) :
    (claim_step checkDeps action now (store, ready) job).2 = ready
      ∧ (findJob (claim_step checkDeps action now (store, ready) job).1 job.id).map Job.status
          = (findJob store job.id).map Job.status
      ∧ ∀ k, findJob store job.id = some k →
          ∃ k2, findJob (claim_step checkDeps action now (store, ready) job).1 job.id = some k2
            ∧ k2.status = k.status
            ∧ metaGet k2.metadata "missing_dependencies" = some (MetaVal.strList missing) := by
  have hstep : claim_step checkDeps action now (store, ready) job
      = ((update_job_status store now job.id none
            (some ("Missing dependencies: " ++ String.intercalate ", " missing))
            { metadata := some (metaSet job.metadata "missing_dependencies"
                (MetaVal.strList missing)) }).1,
          ready) := by
    simp [claim_step, hstatus, haction, hdeps]
  rw [hstep]
  refine ⟨rfl, ?_, ?_⟩
  · rw [findJob_update_self]
    cases hk : findJob store job.id
    · rfl
    · simp [applyUpdate]
  · intro k hk
    rw [findJob_update_self, hk]
    refine ⟨_, rfl, ?_, ?_⟩
    · simp [applyUpdate]
    · simp [applyUpdate]

def c6_job : Job := mkJob "m1" 0 "pending" [("action_needed", MetaVal.str "create_video")]

theorem C6_witness :
    (claim_step video_check_deps "create_video" 0 ([c6_job], []) c6_job).2 = []
      ∧ (findJob (claim_step video_check_deps "create_video" 0 ([c6_job], []) c6_job).1
          c6_job.id).map Job.status = (findJob [c6_job] c6_job.id).map Job.status
      ∧ ∀ k, findJob [c6_job] c6_job.id = some k →
          ∃ k2, findJob (claim_step video_check_deps "create_video" 0 ([c6_job], [])
              c6_job).1 c6_job.id = some k2
            ∧ k2.status = k.status
            ∧ metaGet k2.metadata "missing_dependencies"
                = some (MetaVal.strList ["script", "voiceover_url"]) :=
  C6_not_ready_annotated video_check_deps "create_video" 0 [c6_job] [] c6_job
    ["script", "voiceover_url"] rfl rfl rfl

/-! ### C9 -/

/-- C9: one dispatch cycle of `BaseWorker.run` keeps the tracked in-flight set
within the configured bound `max 1 cfg` (at least 1), never dispatches an id
that is still tracked as active, and (for duplicate-free inputs) keeps the
active list duplicate-free. -/
theorem C9_capacity_and_no_redispatch (cfg : Nat) (active : List String) (jobs : List Job)
    (hlen : active.length ≤ max 1 cfg) :
    ((poll_cycle_dispatch (max 1 cfg) active jobs).1.length ≤ max 1 cfg)
      ∧ (∀ i ∈ (poll_cycle_dispatch (max 1 cfg) active jobs).2, i ∉ active)
      ∧ 1 ≤ max 1 cfg
      ∧ (active.Nodup → (jobs.map Job.id).Nodup →
          (poll_cycle_dispatch (max 1 cfg) active jobs).1.Nodup) := by
  simp only [poll_cycle_dispatch]
  split_ifs with h
  · have hdisp : ∀ i ∈ ((jobs.filter (fun j => decide (j.id ∉ active))).take
        (max 1 cfg - active.length)).map Job.id, i ∉ active := by
      intro i hi
      rcases List.mem_map.mp hi with ⟨j, hj, rfl⟩
      have hjf := List.take_subset _ _ hj
      have hjm := List.mem_filter.mp hjf
      exact of_decide_eq_true hjm.2
    refine ⟨?_, hdisp, Nat.le_max_left 1 cfg, ?_⟩
    · rw [List.length_append, List.length_map]
      have h1 : ((jobs.filter (fun j => decide (j.id ∉ active))).take
          (max 1 cfg - active.length)).length ≤ max 1 cfg - active.length := by
        simp [List.length_take]
      omega
    · intro hactive hjobs
      rw [List.nodup_append]
      refine ⟨hactive, ?_, ?_⟩
      · have hsub : (((jobs.filter (fun j => decide (j.id ∉ active))).take
            (max 1 cfg - active.length)).map Job.id).Sublist (jobs.map Job.id) := by
          exact List.Sublist.map Job.id
            ((List.take_sublist _ _).trans (List.filter_sublist _))
        exact hjobs.sublist hsub
      · intro a ha hd
        exact hdisp a hd ha
  · refine ⟨hlen, ?_, Nat.le_max_left 1 cfg, fun hactive _ => hactive⟩
    intro i hi
    exact absurd hi (List.not_mem_nil i)

theorem C9_witness :
    ((poll_cycle_dispatch (max 1 3) ["x"]
        [mkJob "a" 1 "pending" [], mkJob "b" 2 "pending" []]).1.length ≤ max 1 3)
      ∧ (∀ i ∈ (poll_cycle_dispatch (max 1 3) ["x"]
          [mkJob "a" 1 "pending" [], mkJob "b" 2 "pending" []]).2, i ∉ ["x"])
      ∧ 1 ≤ max 1 3
      ∧ ((["x"] : List String).Nodup →
          (([mkJob "a" 1 "pending" [], mkJob "b" 2 "pending" []].map Job.id)).Nodup →
          (poll_cycle_dispatch (max 1 3) ["x"]
            [mkJob "a" 1 "pending" [], mkJob "b" 2 "pending" []]).1.Nodup) :=
  C9_capacity_and_no_redispatch 3 ["x"]
    [mkJob "a" 1 "pending" [], mkJob "b" 2 "pending" []] (by decide)

/-! ### C5 -/

/-- C5: after a successful video render on a job whose script and voiceover are
populated and which has no published-video reference, the job ends in
`stage_status = "ready"` with `action_needed` absent and the chain sentinel
removed from `original_action` — the publish stage gets no automatic routing
hint, whatever metadata (including `run_all`) the job carried. -/
theorem C5_video_completion (now : Nat) (store : List Job) (j : Job) (vidPath : String)
    (hfind : findJob store j.id = some j)
    (hscript : truthyS j.script = true)
    (hvo : truthyS j.voiceover_url = true)
    (hyt : truthyS j.youtube_url = false)
    (hpath : vidPath ≠ "") :
    ∃ j2, findJob (video_process_success now store j.id vidPath) j.id = some j2
      ∧ j2.status = "ready"
      ∧ metaGet j2.metadata "action_needed" = none
      ∧ metaGet j2.metadata "original_action" = none
      ∧ j2.video_url = some vidPath
      ∧ j2.script = j.script
      ∧ j2.voiceover_url = j.voiceover_url := by
  have hpath' : truthyS (some vidPath) = true := by
    simp [truthyS, hpath]
  simp only [video_process_success, hfind, findJob_update_self, Option.map_some']
  simp only [applyUpdate]
  simp [findJob_update_self, hfind, applyUpdate, hscript, hvo, hyt, hpath', metaGet_pop_self,
    metaGet_pop_ne _ _ _ (by decide : ("action_needed" : String) ≠ "original_action"),
    metaGet_pop_ne _ _ _ (by decide : ("action_needed" : String) ≠ "missing_dependencies"),
    metaGet_pop_ne _ _ _ (by decide : ("original_action" : String) ≠ "missing_dependencies"),
    metaGet_pop_ne _ _ _ (by decide : ("original_action" : String) ≠ "action_needed")]

def c5_job : Job :=
  { mkJob "v1" 0 "pending"
      [("original_action", MetaVal.str "run_all"), ("action_needed", MetaVal.str "create_video")] with
    script := some "s", voiceover_url := some "/vo.mp3" }

theorem C5_witness :
    ∃ j2, findJob (video_process_success 7 [c5_job] c5_job.id "/vid.mp4") c5_job.id = some j2
      ∧ j2.status = "ready"
      ∧ metaGet j2.metadata "action_needed" = none
      ∧ metaGet j2.metadata "original_action" = none
      ∧ j2.video_url = some "/vid.mp4"
      ∧ j2.script = c5_job.script
      ∧ j2.voiceover_url = c5_job.voiceover_url :=
  C5_video_completion 7 [c5_job] c5_job "/vid.mp4" rfl rfl rfl rfl (by decide)

/-! ### C4 -/

theorem findJob_eq_id (store : List Job) (i : String) (k : Job)
    (h : findJob store i = some k) : k.id = i := by
  induction store with
  | nil => exact absurd h (by simp [findJob])
  | cons a rest ih =>
      by_cases ha : a.id = i
      · rw [findJob, if_pos ha] at h
        cases h
        exact ha
      · rw [findJob, if_neg ha] at h
        exact ih h

def c4_job : Job :=
  mkJob "a" 0 "pending"
    [("action_needed", MetaVal.str "generate_script"), ("original_action", MetaVal.str "run_all")]

/-- C4 counterexample: on an auto-chain job the script stage's router writes
`action_needed = "generate_voiceover"` (the action name), not the
`"creating_voiceover"` status value the claim states. -/
theorem C4_counterexample :
    (findJob (script_process_job 1 [c4_job] c4_job "T" "D" ["t1"] "S").1 "a").map
        (fun k => metaGetS k.metadata "action_needed")
      = some (some "generate_voiceover")
      ∧ ("generate_voiceover" : String) ≠ "creating_voiceover" :=
  ⟨rfl, by decide⟩

/-- C4 (amended): for an auto-chain job (`original_action = "run_all"`), after
the script stage succeeds the script, title, description and tags are
populated and `action_needed` is `"generate_voiceover"` with the sentinel
preserved; after the voiceover stage then succeeds, `voiceover_url` is
populated and `action_needed` is `"create_video"` with the sentinel still
preserved. -/
theorem C4_amended_chain (now1 now2 : Nat) (store : List Job) (j : Job)
    (gTitle gDescription gScript vPath : String) (gTags : List String)
    (hfind : findJob store j.id = some j)
    (hchain : metaGet j.metadata "original_action" = some (MetaVal.str "run_all"))
    (hnoscript : j.script = none)
    (hg : gScript ≠ "") :
    (∃ j1, findJob (script_process_job now1 store j gTitle gDescription gTags gScript).1 j.id
        = some j1
      ∧ j1.script = some gScript ∧ j1.title = some gTitle
      ∧ j1.description = some gDescription ∧ j1.tags = some gTags
      ∧ metaGet j1.metadata "action_needed" = some (MetaVal.str "generate_voiceover")
      ∧ metaGet j1.metadata "original_action" = some (MetaVal.str "run_all"))
      ∧ ∀ j1, findJob (script_process_job now1 store j gTitle gDescription gTags gScript).1 j.id
          = some j1 →
          ∃ j2, findJob (voiceover_process_job now2
                (script_process_job now1 store j gTitle gDescription gTags gScript).1 j1 vPath).1
              j.id = some j2
            ∧ j2.voiceover_url = some vPath
            ∧ metaGet j2.metadata "action_needed" = some (MetaVal.str "create_video")
            ∧ metaGet j2.metadata "original_action" = some (MetaVal.str "run_all") := by
  have hpart1 : ∃ j1, findJob (script_process_job now1 store j gTitle gDescription gTags
      gScript).1 j.id = some j1
      ∧ j1.script = some gScript ∧ j1.title = some gTitle
      ∧ j1.description = some gDescription ∧ j1.tags = some gTags
      ∧ metaGet j1.metadata "action_needed" = some (MetaVal.str "generate_voiceover")
      ∧ metaGet j1.metadata "original_action" = some (MetaVal.str "run_all") := by
    simp only [script_process_job, hfind, hnoscript, truthyS]
    simp only [script_success_path, hfind, findJob_update_self, Option.map_some']
    simp only [applyUpdate]
    simp [findJob_update_self, hfind, applyUpdate, metaGetD, metaGet_set_self,
      metaGet_set_ne, metaGet_pop_self, metaGet_pop_ne, hchain]
  refine ⟨hpart1, ?_⟩
  intro j1 hj1
  obtain ⟨j1', he, hs', ht', hd', htg', ha', ho'⟩ := hpart1
  rw [he] at hj1
  have hj1e : j1' = j1 := Option.some.inj hj1
  subst hj1e
  have hid : j1'.id = j.id := findJob_eq_id _ _ _ he
  have hguard : truthyS j1'.script = true := by
    simp [hs', truthyS, hg]
  simp only [voiceover_process_job, hguard, if_pos, hid]
  simp only [voiceover_process_success, he, findJob_update_self, Option.map_some']
  simp only [applyUpdate]
  simp [findJob_update_self, he, applyUpdate, metaGetD, metaGet_set_self,
    metaGet_set_ne, metaGet_pop_self, metaGet_pop_ne, ho']

theorem C4_witness :
    (∃ j1, findJob (script_process_job 1 [c4_job] c4_job "T" "D" ["t1"] "S").1 c4_job.id
        = some j1
      ∧ j1.script = some "S" ∧ j1.title = some "T"
      ∧ j1.description = some "D" ∧ j1.tags = some ["t1"]
      ∧ metaGet j1.metadata "action_needed" = some (MetaVal.str "generate_voiceover")
      ∧ metaGet j1.metadata "original_action" = some (MetaVal.str "run_all"))
      ∧ ∀ j1, findJob (script_process_job 1 [c4_job] c4_job "T" "D" ["t1"] "S").1 c4_job.id
          = some j1 →
          ∃ j2, findJob (voiceover_process_job 2
                (script_process_job 1 [c4_job] c4_job "T" "D" ["t1"] "S").1 j1 "/vo.mp3").1
              c4_job.id = some j2
            ∧ j2.voiceover_url = some "/vo.mp3"
            ∧ metaGet j2.metadata "action_needed" = some (MetaVal.str "create_video")
            ∧ metaGet j2.metadata "original_action" = some (MetaVal.str "run_all") :=
  C4_amended_chain 1 2 [c4_job] c4_job "T" "D" "S" "/vo.mp3" ["t1"] rfl rfl rfl (by decide)

/-! ### C7 -/

def c7_job : Job :=
  { mkJob "w1" 0 "pending" [("action_needed", MetaVal.str "generate_voiceover")] with
    script := some "s", voiceover_url := some "/old.mp3" }

/-- C7 counterexample: re-running the voiceover stage on a job whose
`voiceover_url` is already populated overwrites it with the freshly generated
path — there is no overwrite guard outside the script worker. -/
theorem C7_counterexample :
    (findJob (voiceover_process_job 1 [c7_job] c7_job "/new.mp3").1 "w1").map Job.voiceover_url
        = some (some "/new.mp3")
      ∧ c7_job.voiceover_url = some "/old.mp3"
      ∧ ("/new.mp3" : String) ≠ "/old.mp3" :=
  ⟨rfl, rfl, by decide⟩

/-- C7 (amended): only the script stage is write-once guarded — when the
re-fetched job already has a script, `ScriptWorker.process_job` skips without
touching any payload field (it may only advance the `run_all` routing
metadata); the other stages overwrite their output field on a re-run. -/
theorem C7_amended_script_write_once (now : Nat) (store : List Job) (job cj : Job)
    (gTitle gDescription gScript : String) (gTags : List String)
    (hfind : findJob store job.id = some cj)
    (hscript : truthyS cj.script = true) :
    (script_process_job now store job gTitle gDescription gTags gScript).2 = true
      ∧ (findJob (script_process_job now store job gTitle gDescription gTags gScript).1
          job.id).map Job.script = some cj.script
      ∧ (findJob (script_process_job now store job gTitle gDescription gTags gScript).1
          job.id).map Job.title = some cj.title
      ∧ (findJob (script_process_job now store job gTitle gDescription gTags gScript).1
          job.id).map Job.description = some cj.description
      ∧ (findJob (script_process_job now store job gTitle gDescription gTags gScript).1
          job.id).map Job.tags = some cj.tags
      ∧ (findJob (script_process_job now store job gTitle gDescription gTags gScript).1
          job.id).map Job.voiceover_url = some cj.voiceover_url
      ∧ (findJob (script_process_job now store job gTitle gDescription gTags gScript).1
          job.id).map Job.video_url = some cj.video_url := by
  simp only [script_process_job, hfind, hscript]
  by_cases hc : metaGetD cj.metadata "original_action" "" = "run_all"
      ∨ metaGetD cj.metadata "action_needed" "" = "run_all"
  · simp [hc, findJob_update_self, hfind, applyUpdate]
  · simp [hc, hfind]

def c7w_job : Job :=
  { mkJob "w2" 0 "pending" [("action_needed", MetaVal.str "generate_script")] with
    script := some "already here" }

theorem C7_witness :
    (script_process_job 3 [c7w_job] c7w_job "T" "D" ["t"] "S2").2 = true
      ∧ (findJob (script_process_job 3 [c7w_job] c7w_job "T" "D" ["t"] "S2").1
          c7w_job.id).map Job.script = some c7w_job.script
      ∧ (findJob (script_process_job 3 [c7w_job] c7w_job "T" "D" ["t"] "S2").1
          c7w_job.id).map Job.title = some c7w_job.title
      ∧ (findJob (script_process_job 3 [c7w_job] c7w_job "T" "D" ["t"] "S2").1
          c7w_job.id).map Job.description = some c7w_job.description
      ∧ (findJob (script_process_job 3 [c7w_job] c7w_job "T" "D" ["t"] "S2").1
          c7w_job.id).map Job.tags = some c7w_job.tags
      ∧ (findJob (script_process_job 3 [c7w_job] c7w_job "T" "D" ["t"] "S2").1
          c7w_job.id).map Job.voiceover_url = some c7w_job.voiceover_url
      ∧ (findJob (script_process_job 3 [c7w_job] c7w_job "T" "D" ["t"] "S2").1
          c7w_job.id).map Job.video_url = some c7w_job.video_url :=
  C7_amended_script_write_once 3 [c7w_job] c7w_job c7w_job "T" "D" "S2" ["t"] rfl rfl

/-! ### C8 -/

def c8_job : Job :=
  { mkJob "e1" 0 "pending" [("action_needed", MetaVal.str "generate_voiceover")] with
    script := some "s", error_message := some "boom" }

/-- C8 counterexample: a fresh claim of a pending job (the claim branch of
`BaseWorker.get_pending_jobs`) leaves a previously recorded error message in
place — `update_job_status` only ever writes `error_message`, it never clears
it. -/
theorem C8_counterexample :
    (findJob (claim_step voiceover_check_deps "generate_voiceover" 1 ([c8_job], [])
        c8_job).1 "e1").map Job.error_message = some (some "boom")
      ∧ (some "boom" : Option String) ≠ none :=
  ⟨rfl, by decide⟩

/-- C8 (amended): the last-error message is set when a stage attempt fails, but
a fresh attempt does not clear it — any update issued without an error message
(in particular the claim update) leaves the stored error untouched, so it
persists until overwritten by a later failure. -/
theorem C8_amended_error_persists (now : Nat) (store : List Job) (job_id : String)
    (st : Option String) (u : JobUpdates) (k : Job) (msg : String)
    (hfind : findJob store job_id = some k)
    (hmsg : msg ≠ "") :
    ((findJob (update_job_status store now job_id st none u).1 job_id).map Job.error_message
        = some k.error_message)
      ∧ ((findJob (stage_fail now store job_id msg) job_id).map
          (fun x => (x.status, x.error_message)) = some ("failed", some msg)) := by
  constructor
  · rw [findJob_update_self, hfind]
    simp [applyUpdate]
  · simp only [stage_fail]
    rw [findJob_update_self, hfind]
    simp [applyUpdate, hmsg]

theorem C8_witness :
    ((findJob (update_job_status [c8_job] 1 "e1" (some "creating_voiceover") none
        { metadata := some c8_job.metadata }).1 "e1").map Job.error_message
        = some c8_job.error_message)
      ∧ ((findJob (stage_fail 2 [c8_job] "e1" "tts crashed") "e1").map
          (fun x => (x.status, x.error_message)) = some ("failed", some "tts crashed")) :=
  C8_amended_error_persists 1 [c8_job] "e1" (some "creating_voiceover")
    { metadata := some c8_job.metadata } c8_job "tts crashed" rfl (by decide)

/-! ### C10 -/

theorem mem_insertDesc (j a : Job) (l : List Job) :
    a ∈ insertDesc j l ↔ a = j ∨ a ∈ l := by
  induction l with
  | nil => simp [insertDesc]
  | cons k ks ih =>
      by_cases h : k.created_at < j.created_at
      · simp [insertDesc, h, List.mem_cons]
      · simp only [insertDesc, h, if_false, List.mem_cons, ih]
        tauto

theorem mem_sortDesc (a : Job) (l : List Job) : a ∈ sortDesc l ↔ a ∈ l := by
  induction l with
  | nil => simp [sortDesc]
  | cons k ks ih => simp [sortDesc, mem_insertDesc, ih]

theorem sortDesc_head_of_max (l : List Job) (j : Job) (hmem : j ∈ l)
    (hmax : ∀ k ∈ l, k = j ∨ k.created_at < j.created_at) :
    ∃ t, sortDesc l = j :: t := by
  induction l with
  | nil => exact absurd hmem (List.not_mem_nil j)
  | cons a rest ih =>
      by_cases hjr : j ∈ rest
      · obtain ⟨t, ht⟩ := ih hjr (fun k hk => hmax k (List.mem_cons_of_mem a hk))
        rw [sortDesc, ht]
        rcases hmax a (List.mem_cons_self a rest) with ha | ha
        · subst ha
          rw [insertDesc, if_neg (lt_irrefl _)]
          exact ⟨insertDesc a t, rfl⟩
        · rw [insertDesc, if_neg (by omega : ¬ j.created_at < a.created_at)]
          exact ⟨insertDesc a t, rfl⟩
      · have haj : a = j := by
          rcases List.mem_cons.mp hmem with h | h
          · exact h.symm
          · exact absurd h hjr
        have hlt : ∀ k ∈ rest, k.created_at < j.created_at := by
          intro k hk
          rcases hmax k (List.mem_cons_of_mem _ hk) with he | hl
          · exact absurd (he ▸ hk) hjr
          · exact hl
        subst haj
        rw [sortDesc]
        cases hs : sortDesc rest with
        | nil => exact ⟨[], by rw [insertDesc]⟩
        | cons m ms =>
            have hm : m ∈ rest := (mem_sortDesc m rest).mp (hs ▸ List.mem_cons_self m ms)
            rw [insertDesc, if_pos (hlt m hm)]
            exact ⟨m :: ms, rfl⟩

/-- C10: a heartbeat targets the most recently created job (the unique maximum
of `created_at`) and its write adds or refreshes only the
`"<worker_name>_heartbeat"` metadata key (plus `updated_at`): the job's status,
payload fields, error and every other metadata key are preserved, and every
other job row is untouched. -/
theorem C10_heartbeat_frame (workerKey ts : String) (now : Nat) (store : List Job) (j : Job)
    (hmem : j ∈ store)
    (hmax : ∀ k ∈ store, k = j ∨ k.created_at < j.created_at)
    (hfind : findJob store j.id = some j) :
    (∃ j2, findJob (worker_heartbeat workerKey ts now store) j.id = some j2
      ∧ j2.status = j.status
      ∧ j2.script = j.script ∧ j2.title = j.title ∧ j2.description = j.description
      ∧ j2.tags = j.tags ∧ j2.voiceover_url = j.voiceover_url ∧ j2.video_url = j.video_url
      ∧ j2.youtube_url = j.youtube_url ∧ j2.error_message = j.error_message
      ∧ j2.updated_at = now
      ∧ metaGet j2.metadata (workerKey ++ "_heartbeat") = some (MetaVal.str ts)
      ∧ ∀ k2, k2 ≠ workerKey ++ "_heartbeat" →
          metaGet j2.metadata k2 = metaGet j.metadata k2)
      ∧ ∀ i, i ≠ j.id → findJob (worker_heartbeat workerKey ts now store) i
          = findJob store i := by
  obtain ⟨t, ht⟩ := sortDesc_head_of_max store j hmem hmax
  have hall : sb_get_all_jobs store 1 = [j] := by
    simp [sb_get_all_jobs, ht]
  constructor
  · simp only [worker_heartbeat, hall]
    rw [findJob_update_self, hfind]
    refine ⟨_, rfl, ?_, ?_, ?_, ?_, ?_, ?_, ?_, ?_, ?_, ?_, ?_, ?_⟩
    · simp [applyUpdate]
    · simp [applyUpdate]
    · simp [applyUpdate]
    · simp [applyUpdate]
    · simp [applyUpdate]
    · simp [applyUpdate]
    · simp [applyUpdate]
    · simp [applyUpdate]
    · simp [applyUpdate]
    · simp [applyUpdate]
    · simp [applyUpdate]
    · intro k2 hk2
      simp only [applyUpdate]
      exact metaGet_set_ne j.metadata (workerKey ++ "_heartbeat") k2 (MetaVal.str ts) hk2
  · intro i hi
    simp only [worker_heartbeat, hall]
    exact findJob_update_other store now j.id none none
      { metadata := some (metaSet j.metadata (workerKey ++ "_heartbeat") (MetaVal.str ts)) }
      i hi

def c10_a : Job := mkJob "a" 1 "pending" [("action_needed", MetaVal.str "generate_script")]

def c10_b : Job :=
  { mkJob "b" 5 "ready" [("original_action", MetaVal.str "run_all")] with script := some "s" }

theorem C10_witness :
    (∃ j2, findJob (worker_heartbeat "script_worker" "2024-01-01T00:00:00" 9
        [c10_a, c10_b]) c10_b.id = some j2
      ∧ j2.status = c10_b.status
      ∧ j2.script = c10_b.script ∧ j2.title = c10_b.title
      ∧ j2.description = c10_b.description
      ∧ j2.tags = c10_b.tags ∧ j2.voiceover_url = c10_b.voiceover_url
      ∧ j2.video_url = c10_b.video_url
      ∧ j2.youtube_url = c10_b.youtube_url ∧ j2.error_message = c10_b.error_message
      ∧ j2.updated_at = 9
      ∧ metaGet j2.metadata ("script_worker" ++ "_heartbeat")
          = some (MetaVal.str "2024-01-01T00:00:00")
      ∧ ∀ k2, k2 ≠ "script_worker" ++ "_heartbeat" →
          metaGet j2.metadata k2 = metaGet c10_b.metadata k2)
      ∧ ∀ i, i ≠ c10_b.id → findJob (worker_heartbeat "script_worker" "2024-01-01T00:00:00" 9
          [c10_a, c10_b]) i = findJob [c10_a, c10_b] i :=
  C10_heartbeat_frame "script_worker" "2024-01-01T00:00:00" 9 [c10_a, c10_b] c10_b
    (by decide) (by decide) rfl

end MoneyLeads
